import Mathlib

/-!
Verification of the pptx merge scripts (mk2.py, mk3.py, mk4.py,
copy_elements_method.py) against their natural-language specification.
The Python sources are shallowly embedded below: packages are association
lists from part path to bytes, relationship documents are lists of `Rel`
records, and each embedded definition mirrors one function or code block
of the source scripts, named in the accompanying doc comment.
-/

namespace PptxMerge

/-- Does the character list `l` start with `pat`?  Used to model Python
`str.startswith`. -/
def listHasPre : List Char → List Char → Bool
  | _, [] => true
  | [], _ :: _ => false
  | c :: cs, p :: ps => c = p && listHasPre cs ps

/-- Does the character list `l` contain `pat` as a contiguous run?  Models
Python's `pat in s` substring test. -/
def listHasRun : List Char → List Char → Bool
  | [], pat => pat.isEmpty
  | l@(_ :: cs), pat => listHasPre l pat || listHasRun cs pat

/-- Python `pat in s` on strings. -/
def strContains (s pat : String) : Bool := listHasRun s.data pat.data

/-- Python `s.startswith(pre)`. -/
def strStarts (s pre : String) : Bool := listHasPre s.data pre.data

/-- Split a character list at a separator, accumulating the current
component in reverse; models `str.split(sep)` for a one-character
separator. -/
def splitCharsAux (sep : Char) : List Char → List Char → List String
  | [], cur => [String.mk cur.reverse]
  | c :: cs, cur =>
    if c = sep then String.mk cur.reverse :: splitCharsAux sep cs []
    else splitCharsAux sep cs (c :: cur)

/-- Models `str.split(sep)` for a one-character separator. -/
def splitStr (sep : Char) (s : String) : List String := splitCharsAux sep s.data []

/-- Split a path into `/`-separated components. -/
def splitPath (s : String) : List String := splitStr '/' s

/-- Join path components with `/`. -/
def joinPath : List String → String
  | [] => ""
  | [x] => x
  | x :: xs => x ++ "/" ++ joinPath xs

/-- Models `os.path.dirname`: everything before the final component (empty string
when the path has a single component). -/
def dirName (s : String) : String := joinPath (splitPath s).dropLast

/-- Models `os.path.basename`: the final path component. -/
def baseName (s : String) : String := (splitPath s).getLastD ""

/-- One step of path normalisation: `..` pops a component, `.` and empty
components vanish. -/
def normSteps (acc : List String) : List String → List String
  | [] => acc
  | c :: cs =>
    if c = ".." then normSteps acc.dropLast cs
    else if c = "." || c = "" then normSteps acc cs
    else normSteps (acc ++ [c]) cs

/-- Models `os.path.normpath(os.path.join(d, t))` for the relative paths the merge
scripts manipulate. -/
def normJoin (d t : String) : String := joinPath (normSteps (splitPath d) (splitPath t))

/-- Models `os.path.splitext(...)[1]`: the extension of the final path component,
leading dots of the component not counting as separators. -/
def extOf (s : String) : String :=
  let b := baseName s
  let stripped := String.mk (b.data.dropWhile (fun c => c = '.'))
  let parts := splitStr '.' stripped
  if parts.length ≤ 1 then "" else "." ++ parts.getLastD ""

/-- A `<Relationship>` element of a `.rels` document: `Id`, `Type`,
`Target` attributes plus the optional `TargetMode`. -/
structure Rel where
  rid : String
  rtype : String
  target : String
  mode : Option String
deriving DecidableEq

/-- A `<p:sldId>` element of `presentation.xml`: numeric `id` plus the
`r:id` relationship reference. -/
structure SlideEntry where
  sid : Nat
  rid : String
deriving DecidableEq

/-- From `copy_elements_method.merge_presentations` lines 48-50: the slide-id
watermark is the maximum id of the base `sldIdLst`, or 255 when the list is
empty. -/
def maxSlideId (ids : List Nat) : Nat :=
  if ids.isEmpty then 255 else ids.foldl Nat.max 0

/-- The unit id handed out for the `i`-th allocation: the loop at
`copy_elements_method` line 103 increments the watermark before each use. -/
def allocSlideId (ids : List Nat) (i : Nat) : Nat := maxSlideId ids + i + 1

/-- The numeric value of a decimal digit character, `none` otherwise. -/
def charDigit (c : Char) : Option Nat :=
  if 48 ≤ c.toNat ∧ c.toNat ≤ 57 then some (c.toNat - 48) else none

/-- Accumulate the decimal value of a digit run, failing on the first
non-digit; models Python `int` on a non-empty all-digit string. -/
def digitsVal : List Char → Nat → Option Nat
  | [], acc => some acc
  | c :: cs, acc =>
    match charDigit c with
    | some d => digitsVal cs (acc * 10 + d)
    | none => none

/-- Python `int(s)` restricted to non-negative decimal literals; raises
(`none`) on an empty or non-digit string. -/
def parseDigits (l : List Char) : Option Nat :=
  if l.isEmpty then none else digitsVal l 0

/-- From `mk2.merge_pptx_files` lines 68-75: parse the numeric suffix of a
relationship id of the form `rId<n>`; ids not of that form are skipped by
the `startswith` guard and the `except ValueError` around `int`. -/
def parseRIdSuffix (s : String) : Option Nat :=
  if strStarts s "rId" then parseDigits (s.data.drop 3) else none

/-- The numeric suffixes of all `rId<n>` ids in one relationship
document. -/
def relIdSuffixes (rels : List Rel) : List Nat :=
  rels.filterMap (fun r => parseRIdSuffix r.rid)

/-- From `mk2.merge_pptx_files` lines 67-75: the relationship-id watermark is
the maximum `rId<n>` suffix of the scanned document. -/
def maxRelIdNum (rels : List Rel) : Nat :=
  (relIdSuffixes rels).foldl Nat.max 0

/-- A package's relationship documents: part path of the `.rels` document
mapped to its parsed relationships. -/
def RelDocs := List (String × List Rel)

/-- Association-list lookup keyed by strings, modelling Python dict and
path lookups. -/
def lookupS {α : Type} : List (String × α) → String → Option α
  | [], _ => none
  | (k, v) :: t, q => if q = k then some v else lookupS t q

/-- The top-level relationship document, the only one `mk2` (lines 63-75)
scans when seeding the relationship-id watermark. -/
def topLevelRelsDoc (docs : List (String × List Rel)) : List Rel :=
  (lookupS docs "ppt/_rels/presentation.xml.rels").getD []

/-- The seeding `mk2.merge_pptx_files` actually performs: scan only
`ppt/_rels/presentation.xml.rels`. -/
def mk2SeedRelId (docs : List (String × List Rel)) : Nat :=
  maxRelIdNum (topLevelRelsDoc docs)

/-- Modelled from the spec (§4.4): the package-wide watermark obtained by
scanning every relationship document of the target, which the spec mandates
but no script implements. -/
def specSeedRelIdPkg (docs : List (String × List Rel)) : Nat :=
  (docs.map (fun d => maxRelIdNum d.2)).foldl Nat.max 0

/-- Every relationship id, of every relationship document of a package. -/
def allRelIds (docs : List (String × List Rel)) : List String :=
  (docs.map (fun d => d.2.map Rel.rid)).flatten

/- Helper lemmas about `foldl Nat.max`. -/

theorem init_le_foldl_max (l : List Nat) (a : Nat) : a ≤ l.foldl Nat.max a := by
  induction l generalizing a with
  | nil => exact Nat.le_refl a
  | cons b t ih => exact Nat.le_trans (Nat.le_max_left a b) (ih (Nat.max a b))

theorem mem_le_foldl_max (l : List Nat) (a x : Nat) (h : x ∈ l) :
    x ≤ l.foldl Nat.max a := by
  induction l generalizing a with
  | nil => cases h
  | cons b t ih =>
    rcases List.mem_cons.mp h with rfl | hx
    · exact Nat.le_trans (Nat.le_max_right a x) (init_le_foldl_max t (Nat.max a x))
    · exact ih (Nat.max a b) hx

/-- From `mk2.merge_pptx_files` lines 110-113: resolve a relationship id to its
`Target` in a relationship document. -/
def findRelTarget (rels : List Rel) (rid : String) : Option String :=
  (rels.find? (fun r => r.rid = rid)).map Rel.target

/-- The OOXML slide relationship type URI (mk2 line 142). -/
def slideRelType : String :=
  "http://schemas.openxmlformats.org/officeDocument/2006/relationships/slide"

/-- The OOXML image relationship type URI. -/
def imageRelType : String :=
  "http://schemas.openxmlformats.org/officeDocument/2006/relationships/image"

/-- Everything the slide-processing loop of `mk2.merge_pptx_files`
(lines 92-143) produces: slide entries appended to `sldIdLst`, relationship
entries appended to the top-level rels document, file copies
(source path, destination path), the ids drawn from the two counters (one
pair per iteration, drawn at lines 97-98 before the dangling check at
lines 115-116), and the diagnostics the loop emits (it emits none). -/
structure Mk2Out where
  entries : List SlideEntry
  newRels : List Rel
  copies : List (String × String)
  ids : List (Nat × Nat)
  log : List String
deriving DecidableEq

/-- From `mk2.merge_pptx_files` lines 92-143: walk the source `sldIdLst`; each
iteration increments both watermarks first (lines 97-98), then looks the
unit's relationship id up in the source's top-level rels document and
silently skips the unit when unresolved (lines 110-116); otherwise the
slide file is copied by its original basename (lines 119-124) and the new
entries are appended (lines 134-143). -/
def mk2Loop (maxId maxRel : Nat) (rels2 : List Rel) : List SlideEntry → Mk2Out
  | [] => ⟨[], [], [], [], []⟩
  | u :: us =>
    let newId := maxId + 1
    let newRelN := maxRel + 1
    let rest := mk2Loop newId newRelN rels2 us
    match findRelTarget rels2 u.rid with
    | none => { rest with ids := (newId, newRelN) :: rest.ids }
    | some tgt =>
      { entries := ⟨newId, "rId" ++ Nat.repr newRelN⟩ :: rest.entries
        newRels := ⟨"rId" ++ Nat.repr newRelN, slideRelType,
                    "slides/" ++ baseName tgt, none⟩ :: rest.newRels
        copies := ("ppt/" ++ tgt, "ppt/slides/" ++ baseName tgt) :: rest.copies
        ids := (newId, newRelN) :: rest.ids
        log := rest.log }

/-- Every id pair the loop draws strictly dominates the watermarks it
started from. -/
theorem mk2Loop_ids_gt (rels2 : List Rel) (us : List SlideEntry) :
    ∀ (a b : Nat), ∀ p ∈ (mk2Loop a b rels2 us).ids, a < p.1 ∧ b < p.2 := by
  induction us with
  | nil => intro a b p hp; cases hp
  | cons u t ih =>
    intro a b p hp
    unfold mk2Loop at hp
    cases h : findRelTarget rels2 u.rid <;> rw [h] at hp <;>
      simp only [List.mem_cons] at hp <;>
      rcases hp with rfl | hp
    · exact ⟨Nat.lt_succ_self a, Nat.lt_succ_self b⟩
    · have := ih (a + 1) (b + 1) p hp
      omega
    · exact ⟨Nat.lt_succ_self a, Nat.lt_succ_self b⟩
    · have := ih (a + 1) (b + 1) p hp
      omega

/-- C7: within one merge the ids drawn by `mk2`'s counters — one pair per
source unit, drawn before the unit can be skipped — are strictly increasing
in both categories (unit ids and relationship ids) along the sequence of
draws, hence pairwise distinct, and a drawn pair never recurs even when its
unit is skipped because its relationship id does not resolve. -/
theorem mk2_allocator_strictly_increasing (a b : Nat) (rels2 : List Rel)
    (us : List SlideEntry) :
    ((mk2Loop a b rels2 us).ids).Pairwise (fun p q => p.1 < q.1 ∧ p.2 < q.2) := by
  induction us generalizing a b with
  | nil => exact List.Pairwise.nil
  | cons u t ih =>
    unfold mk2Loop
    cases h : findRelTarget rels2 u.rid <;>
      exact List.Pairwise.cons
        (fun q hq => by
          have := mk2Loop_ids_gt rels2 t (a + 1) (b + 1) q hq
          exact ⟨this.1, this.2⟩)
        (ih (a + 1) (b + 1))

/-- C3 (amended): a source unit whose relationship id does not resolve is
skipped silently — exactly the resolvable units yield new slide entries,
and the loop records no warning of any kind. -/
theorem mk2_dangling_skipped_silently (a b : Nat) (rels2 : List Rel)
    (us : List SlideEntry) :
    (mk2Loop a b rels2 us).entries.length
      = (us.filter (fun u => (findRelTarget rels2 u.rid).isSome)).length
    ∧ (mk2Loop a b rels2 us).log = [] := by
  induction us generalizing a b with
  | nil => exact ⟨rfl, rfl⟩
  | cons u t ih =>
    unfold mk2Loop
    cases h : findRelTarget rels2 u.rid <;>
      simp [h, List.filter_cons, (ih (a + 1) (b + 1)).1, (ih (a + 1) (b + 1)).2]

/-- Source units for the C3 counterexample: the first references `rId9`,
absent from the source rels document; the second references `rId2`. -/
def c3Units : List SlideEntry := [⟨100, "rId9"⟩, ⟨101, "rId2"⟩]

/-- The source top-level rels document for the C3 counterexample. -/
def c3Rels2 : List Rel := [⟨"rId2", slideRelType, "slides/slideB.xml", none⟩]

/-- The mk2 loop run on the C3 counterexample input. -/
def c3Out : Mk2Out := mk2Loop 2 5 c3Rels2 c3Units

/-- C3 (counterexample): with one dangling unit and one resolvable unit the
merge continues (one entry added, the remaining unit merged), but no
`DanglingUnitReference` warning is recorded anywhere — the loop's
diagnostic output is empty, refuting "one DanglingUnitReference warning
returned". -/
theorem c3_no_warning_recorded :
    c3Out.entries.length = 1
    ∧ c3Out.log.count "DanglingUnitReference" = 0
    ∧ c3Out.log = [] := by decide

/-- The inputs `mk2.merge_pptx_files` consumes after extraction: the two
parsed `sldIdLst` elements (`none` models the element being absent, the
case raising `ValueError` at lines 53-54) and the two top-level
relationship documents. -/
structure Mk2Input where
  sld1 : Option (List SlideEntry)
  sld2 : Option (List SlideEntry)
  rels1 : List Rel
  rels2 : List Rel
deriving DecidableEq

/-- The fatal error mk2 raises at line 54. -/
inductive MergeErr
  | missingSldIdLst
deriving DecidableEq

/-- From `mk2.merge_pptx_files` lines 56-60: the slide-id watermark starts at 0
and folds `max` over the base `sldIdLst` ids. -/
def mk2MaxSlideIdOf (l : List SlideEntry) : Nat :=
  (l.map SlideEntry.sid).foldl Nat.max 0

/-- Models `mk2.merge_pptx_files` end to end, paired with a flag recording whether
the temporary working directory was removed before returning.  The
`shutil.rmtree(temp_dir)` at line 211 sits on the straight-line success
path with no try/finally around the body, so the `ValueError` raised at
line 54 escapes before cleanup ever runs. -/
def mk2Merge (inp : Mk2Input) : Except MergeErr Mk2Out × Bool :=
  match inp.sld1, inp.sld2 with
  | some l1, some units =>
    (Except.ok (mk2Loop (mk2MaxSlideIdOf l1) (maxRelIdNum inp.rels1) inp.rels2 units),
     true)
  | _, _ => (Except.error MergeErr.missingSldIdLst, false)

/-- Models the `copy_elements_method.merge_presentations` control flow, lines 23-152:
the whole body runs inside try/except/finally.  The body either returns
early when the source has no `sldIdLst` (lines 72-74), completes, or
raises — the bare `except` at lines 147-148 swallows any exception — and
the `finally` block at lines 149-152 removes the temporary directory on
every one of those paths, which the returned flag records. -/
def ceMergeCleaned (inp : Mk2Input) : Option (List SlideEntry) × Bool :=
  match inp.sld2 with
  | none => (none, true)
  | some units => (some units, true)

/-- C8 (amended): `copy_elements_method` (and likewise `mk4`) removes the
staging directory on every path thanks to its `finally` block, whereas
`mk2` removes it exactly when the merge succeeds: its cleanup flag equals
the success of the result, so mk2's failure path leaks the directory. -/
theorem temp_dir_cleanup (inp inp' : Mk2Input) :
    (ceMergeCleaned inp').2 = true
    ∧ (mk2Merge inp).2 = (mk2Merge inp).1.isOk := by
  constructor
  · unfold ceMergeCleaned
    cases inp'.sld2 <;> rfl
  · unfold mk2Merge
    cases h1 : inp.sld1 <;> cases h2 : inp.sld2 <;> rfl

/-- A merge invocation whose base presentation lacks `sldIdLst`. -/
def c8Input : Mk2Input := ⟨none, some [], [], []⟩

/-- C8 (counterexample): on a base package without a `sldIdLst` element,
`mk2` fails with `ValueError` (line 54) and returns without removing the
temporary working directory — cleanup does not happen on this failure
path, refuting "removed ... on every failure path". -/
theorem c8_failure_path_leaks_tempdir :
    (mk2Merge c8Input).1.isOk = false ∧ (mk2Merge c8Input).2 = false := by decide

/-- The C2 counterexample target package: the top-level relationship
document holds `rId5` only, while a slide-local relationship document also
holds `rId6` and `rId99`. -/
def c2Docs : List (String × List Rel) :=
  [("ppt/_rels/presentation.xml.rels",
    [⟨"rId5", slideRelType, "slides/slide1.xml", none⟩]),
   ("ppt/slides/_rels/slide1.xml.rels",
    [⟨"rId6", imageRelType, "../media/image1.png", none⟩,
     ⟨"rId99", imageRelType, "../media/image2.png", none⟩])]

/-- C2 (counterexample): the code's seeding scans only the top-level
relationship document, yielding watermark 5 where the package-wide maximum
is 99; the first allocated id `rId6` is already in use inside a slide-local
relationship document of the target, refuting "every id the allocator
returns is unused anywhere in the target package". -/
theorem c2_underseeded_watermark :
    mk2SeedRelId c2Docs = 5
    ∧ ("rId" ++ Nat.repr (mk2SeedRelId c2Docs + 1)) ∈ allRelIds c2Docs
    ∧ specSeedRelIdPkg c2Docs = 99
    ∧ mk2SeedRelId c2Docs ≠ specSeedRelIdPkg c2Docs := by decide

/-- C2 (amended): the relationship-id watermark is the maximum `rId<n>`
suffix of the top-level relationship document only, and the next allocated
suffix is indeed unused in that one document — it strictly exceeds every
suffix appearing there. -/
theorem c2_fresh_for_toplevel_doc (rels : List Rel) :
    ∀ x ∈ relIdSuffixes rels, x < maxRelIdNum rels + 1 := by
  intro x hmem
  have h := mem_le_foldl_max (relIdSuffixes rels) 0 x hmem
  have h2 : (relIdSuffixes rels).foldl Nat.max 0 = maxRelIdNum rels := rfl
  omega

/-- Witness for the amended C2 theorem at a concrete relationship
document. -/
theorem c2_fresh_for_toplevel_doc_witness :
    5 ∈ relIdSuffixes [⟨"rId5", slideRelType, "slides/slide1.xml", none⟩]
    ∧ 5 < maxRelIdNum [⟨"rId5", slideRelType, "slides/slide1.xml", none⟩] + 1 :=
  ⟨by decide,
   c2_fresh_for_toplevel_doc [⟨"rId5", slideRelType, "slides/slide1.xml", none⟩]
     5 (by decide)⟩

/-- C10: with an empty base slide list the watermark is seeded at 255 and
the first allocated slide id is 256; with a non-empty list every allocated
id strictly exceeds every id already present. -/
theorem slide_id_seed_and_monotone :
    (maxSlideId [] = 255 ∧ allocSlideId [] 0 = 256)
    ∧ ∀ (ids : List Nat) (i x : Nat), x ∈ ids → x < allocSlideId ids i := by
  refine ⟨⟨rfl, rfl⟩, ?_⟩
  intro ids i x hx
  have h1 : x ≤ ids.foldl Nat.max 0 := mem_le_foldl_max ids 0 x hx
  have h2 : maxSlideId ids = ids.foldl Nat.max 0 := by
    unfold maxSlideId
    cases ids with
    | nil => cases hx
    | cons a t => rfl
  unfold allocSlideId
  omega

/-- Witness for C10's theorem at a concrete input: 3 is a member of the
slide-id list `[1, 3, 2]` and is smaller than the first allocated id. -/
theorem slide_id_seed_and_monotone_witness :
    3 ∈ [1, 3, 2] ∧ 3 < allocSlideId [1, 3, 2] 0 :=
  ⟨by decide, slide_id_seed_and_monotone.2 [1, 3, 2] 0 3 (by decide)⟩

/-- Models `shutil.copy2` into the extracted target tree, as an update of the
path → bytes map: writing bytes at a path replaces whatever part was
there (the new binding shadows any older one under `lookupS`). -/
def writePart (pkg : List (String × String)) (p b : String) : List (String × String) :=
  (p, b) :: pkg

/-- From `mk2.merge_pptx_files` lines 119-121: the destination path of a copied
slide is the slides directory of the base joined with the slide file's
original basename — no freshness check against existing parts. -/
def mk2SlideDest (target : String) : String := "ppt/slides/" ++ baseName target

/-- From `mk2.merge_pptx_files` line 124: copy the source slide's bytes to the
computed destination. -/
def mk2CopySlide (base : List (String × String)) (target srcBytes : String) :
    List (String × String) :=
  writePart base (mk2SlideDest target) srcBytes

/-- C5 (amended): a copied unit's bytes land at
`ppt/slides/<source basename>` — a path computed without consulting the
existing target parts — and the write replaces any part already at that
path while leaving every other part unchanged. -/
theorem slide_copy_overwrites_in_place (base : List (String × String))
    (target srcBytes : String) :
    lookupS (mk2CopySlide base target srcBytes) (mk2SlideDest target) = some srcBytes
    ∧ ∀ q, q ≠ mk2SlideDest target →
        lookupS (mk2CopySlide base target srcBytes) q = lookupS base q := by
  constructor
  · simp [mk2CopySlide, writePart, lookupS]
  · intro q hq
    show lookupS ((mk2SlideDest target, srcBytes) :: base) q = _
    simp [lookupS, hq]

/-- Witness for the amended C5 theorem at concrete values. -/
theorem slide_copy_overwrites_in_place_witness :
    lookupS (mk2CopySlide [("ppt/presentation.xml", "PRES")] "slides/slide9.xml" "S")
        (mk2SlideDest "slides/slide9.xml") = some "S"
    ∧ lookupS (mk2CopySlide [("ppt/presentation.xml", "PRES")] "slides/slide9.xml" "S")
        "ppt/presentation.xml"
      = lookupS [("ppt/presentation.xml", "PRES")] "ppt/presentation.xml" := by
  refine ⟨(slide_copy_overwrites_in_place _ _ _).1, ?_⟩
  exact (slide_copy_overwrites_in_place [("ppt/presentation.xml", "PRES")]
    "slides/slide9.xml" "S").2 "ppt/presentation.xml" (by decide)

/-- The base package for the C5 counterexample: it already owns a part at
`ppt/slides/slide1.xml`. -/
def c5Base : List (String × String) :=
  [("ppt/slides/slide1.xml", "BASEBYTES"), ("ppt/presentation.xml", "PRES")]

/-- C5 (counterexample): copying a source slide whose file is also named
`slide1.xml` targets a path already present in the base package, and the
existing part's bytes are replaced — refuting "a fresh path that differs
from every path already present" and "no existing target part's bytes are
ever overwritten". -/
theorem c5_not_fresh_overwrites :
    mk2SlideDest "slides/slide1.xml" ∈ c5Base.map Prod.fst
    ∧ lookupS c5Base "ppt/slides/slide1.xml" = some "BASEBYTES"
    ∧ lookupS (mk2CopySlide c5Base "slides/slide1.xml" "SRCBYTES")
        "ppt/slides/slide1.xml" = some "SRCBYTES" := by decide

/-- The `[Content_Types].xml` registry: `Default` declarations
(extension → MIME) and `Override` declarations (part path → MIME). -/
structure ContentTypes where
  defaults : List (String × String)
  overrides : List (String × String)
deriving DecidableEq

/-- From `mk2.merge_pptx_files` lines 177-200: the content-type merge collects
the base's Override part names (lines 188-190) and appends the source's
Override elements whose part name is not among them (lines 192-195).
`Default` elements of the source registry are never examined, and the
merge emits no diagnostics; the second component records the (empty) list
of warnings produced. -/
def mk2MergeContentTypes (ct1 ct2 : ContentTypes) : ContentTypes × List String :=
  let existing := ct1.overrides.map Prod.fst
  ({ defaults := ct1.defaults
     overrides := ct1.overrides ++ ct2.overrides.filter (fun o => !(existing.contains o.1)) },
   [])

theorem lookup_append_of_mem_keys (l1 l2 : List (String × String)) (p : String)
    (h : p ∈ l1.map Prod.fst) :
    lookupS (l1 ++ l2) p = lookupS l1 p := by
  induction l1 with
  | nil => cases h
  | cons kv t ih =>
    cases kv with
    | mk k v =>
      by_cases hq : p = k
      · simp [lookupS, hq]
      · have hm : p ∈ t.map Prod.fst := by
          rcases List.mem_cons.mp h with h1 | h1
          · exact absurd h1 hq
          · exact h1
        simp [lookupS, hq, ih hm]

/-- C6 (amended): when the two registries disagree, the target's
declaration is kept — the merged registry's `Default` map is exactly the
target's (source defaults are never merged in) and every part path already
overridden in the target keeps the target's MIME — but no
`ContentTypeConflict` warning is recorded: the warning list is empty. -/
theorem content_type_target_wins_silently (ct1 ct2 : ContentTypes) :
    (mk2MergeContentTypes ct1 ct2).1.defaults = ct1.defaults
    ∧ (mk2MergeContentTypes ct1 ct2).2 = []
    ∧ ∀ p, p ∈ ct1.overrides.map Prod.fst →
        lookupS (mk2MergeContentTypes ct1 ct2).1.overrides p
          = lookupS ct1.overrides p := by
  refine ⟨rfl, rfl, ?_⟩
  intro p hp
  exact lookup_append_of_mem_keys ct1.overrides _ p hp

/-- Witness for the amended C6 theorem at concrete registries. -/
theorem content_type_target_wins_silently_witness :
    lookupS (mk2MergeContentTypes ⟨[("png", "image/png")], [("/a", "t/a")]⟩
        ⟨[("png", "image/x-png")], [("/a", "t/b")]⟩).1.overrides "/a"
      = lookupS [("/a", "t/a")] "/a" :=
  (content_type_target_wins_silently ⟨[("png", "image/png")], [("/a", "t/a")]⟩
    ⟨[("png", "image/x-png")], [("/a", "t/b")]⟩).2.2 "/a" (by decide)

/-- The target registry for the C6 counterexample. -/
def c6Ct1 : ContentTypes :=
  ⟨[("png", "image/png")], [("/ppt/presentation.xml", "appl/pres")]⟩

/-- The source registry for the C6 counterexample: its `Default` map
disagrees with the target's on the extension `png`. -/
def c6Ct2 : ContentTypes := ⟨[("png", "image/x-png")], []⟩

/-- C6 (counterexample): merging two registries whose Default maps
disagree on `png` keeps the target's MIME, but the number of recorded
warnings is 0, not the claimed exactly-one `ContentTypeConflict`. -/
theorem c6_no_conflict_warning :
    lookupS (mk2MergeContentTypes c6Ct1 c6Ct2).1.defaults "png" = some "image/png"
    ∧ (mk2MergeContentTypes c6Ct1 c6Ct2).2.length = 0 := by decide

/-- Python `target[3:]` stripping at `copy_elements_method` lines 298-300:
remove one leading `../` from an embedded-workbook target. -/
def stripParentDots (t : String) : String :=
  if strStarts t "../" then String.mk (t.data.drop 3) else t

/-- The relationship-type markers tested at `copy_elements_method`
line 208. -/
def mediaTypeMarks : List String := ["image", "audio", "video"]

/-- The OOXML chart relationship type URI. -/
def chartRelType : String :=
  "http://schemas.openxmlformats.org/officeDocument/2006/relationships/chart"

/-- The OOXML embedded-package relationship type URI. -/
def packageRelType : String :=
  "http://schemas.openxmlformats.org/officeDocument/2006/relationships/package"

/-- The mutable state threaded through `process_slide_relationships`:
the `added_media` dict mapping canonical source media paths to their
allocated target names, plus the sequence of hex names `uuid.uuid4()`
will produce (the embedding's explicit source of the script's
randomness). -/
structure MState where
  added : List (String × String)
  us : List String
deriving DecidableEq

/-- Models `copy_elements_method.process_chart_relationships` lines 281-322:
walk a chart's relationship document; for every embedded-workbook
relationship (`'package' in rel_type and '.xlsx' in target`), strip one
leading `../` from the target, look the workbook up at that path relative
to the SOURCE EXTRACTION ROOT (line 303 joins `add_dir` with the stripped
path, without the `ppt/` segment), copy it — when found — to the same
root-relative path in the base (line 314, also outside `ppt/`), and
unconditionally rewrite the relationship target to `../<excel_id>`
(line 319).  Returns the rewritten document, the copies performed
(source path, destination path), and the unconsumed uuid names. -/
def processChartRels (addPkg : List String) :
    List String → List Rel → List Rel × List (String × String) × List String
  | us, [] => ([], [], us)
  | us, r :: rs =>
    if strContains r.rtype "package" && strContains r.target ".xlsx" then
      let ep := stripParentDots r.target
      let u := us.headD ""
      let excelId := "embeddings/Microsoft_Excel_Sheet" ++ u ++ ".xlsx"
      let cs := if addPkg.contains ep then [(ep, excelId)] else []
      let rest := processChartRels addPkg us.tail rs
      ({r with target := "../" ++ excelId} :: rest.1, cs ++ rest.2.1, rest.2.2)
    else
      let rest := processChartRels addPkg us rs
      (r :: rest.1, rest.2.1, rest.2.2)

/-- The result of handling one relationship of a slide
(`copy_elements_method` lines 203-276): the possibly-rewritten
relationship element, the updated state, the media copies performed
(canonical media path, source path, destination path), the chart and
workbook copies performed (source path, destination path), any extra
relationship documents written, and the media target rewrites
(canonical media path, new target). -/
structure HRes where
  rel : Rel
  st : MState
  mcopies : List (String × String × String)
  ccopies : List (String × String)
  parts : List (String × List Rel)
  rewrites : List (String × String)
deriving DecidableEq

/-- One iteration of the relationship loop of
`copy_elements_method.process_slide_relationships` (lines 203-276).
Media branch (208-235): skip `http` targets; canonicalise the target
against the slide's directory; on first sight allocate
`media/image<len+1><ext>`, register it in `added_media`, copy the bytes
when the source file exists, and in every case rewrite the target to
`../<allocated name>`.  Chart branch (238-276): draw a fresh uuid name,
rewrite the target to `../charts/chart<uuid>.xml` unconditionally, copy
the chart when its source exists, and when the source chart has a
relationship document, process it via `process_chart_relationships` and
write the result as `charts/_rels/chart<uuid>.xml.rels`. -/
def handleRel (addPkg : List String) (chartDocs : List (String × List Rel))
    (slidePath : String) (st : MState) (r : Rel) : HRes :=
  if mediaTypeMarks.any (fun m => strContains r.rtype m) then
    if strStarts r.target "http" then ⟨r, st, [], [], [], []⟩
    else
      let mediaPath := normJoin (dirName slidePath) r.target
      match lookupS st.added mediaPath with
      | some name =>
        ⟨{ r with target := "../" ++ name }, st, [], [], [],
         [(mediaPath, "../" ++ name)]⟩
      | none =>
        let ext := extOf mediaPath
        let newName := "media/image" ++ Nat.repr (st.added.length + 1) ++ ext
        let srcP := "ppt/" ++ mediaPath
        let mcs := if addPkg.contains srcP
          then [(mediaPath, srcP, "ppt/" ++ newName)] else []
        ⟨{ r with target := "../" ++ newName },
         { st with added := (mediaPath, newName) :: st.added },
         mcs, [], [], [(mediaPath, "../" ++ newName)]⟩
  else if strContains r.rtype "chart" then
    let chartPath := normJoin (dirName slidePath) r.target
    let u := st.us.headD ""
    let st1 : MState := { st with us := st.us.tail }
    let newChartPath := "charts/chart" ++ u ++ ".xml"
    let srcP := "ppt/" ++ chartPath
    if addPkg.contains srcP then
      match lookupS chartDocs ("ppt/charts/_rels/" ++ baseName chartPath ++ ".rels") with
      | some crels =>
        let c := processChartRels addPkg st1.us crels
        ⟨{ r with target := "../" ++ newChartPath },
         { st1 with us := c.2.2 },
         [], (srcP, "ppt/" ++ newChartPath) :: c.2.1,
         [("ppt/charts/_rels/chart" ++ u ++ ".xml.rels", c.1)], []⟩
      | none =>
        ⟨{ r with target := "../" ++ newChartPath }, st1, [],
         [(srcP, "ppt/" ++ newChartPath)], [], []⟩
    else
      ⟨{ r with target := "../" ++ newChartPath }, st1, [], [], [], []⟩
  else ⟨r, st, [], [], [], []⟩

/-- The aggregate result of a relationship-document walk: the rewritten
document, the final state, and the concatenated effects. -/
structure LRes where
  rels : List Rel
  st : MState
  mcopies : List (String × String × String)
  ccopies : List (String × String)
  parts : List (String × List Rel)
  rewrites : List (String × String)
deriving DecidableEq

/-- The relationship loop of `process_slide_relationships`
(lines 203-276) over a whole document. -/
def handleRels (addPkg : List String) (chartDocs : List (String × List Rel))
    (slidePath : String) : MState → List Rel → LRes
  | st, [] => ⟨[], st, [], [], [], []⟩
  | st, r :: rs =>
    let h := handleRel addPkg chartDocs slidePath st r
    let t := handleRels addPkg chartDocs slidePath h.st rs
    ⟨h.rel :: t.rels, t.st, h.mcopies ++ t.mcopies, h.ccopies ++ t.ccopies,
     h.parts ++ t.parts, h.rewrites ++ t.rewrites⟩

/-- Models `process_slide_relationships` for one slide (lines 180-279): when the
source slide has no relationship document the function returns without
effect (lines 194-196); otherwise the rewritten document is written at
`ppt/<dir of new slide>/_rels/<basename of new slide>.rels`
(lines 192, 279). -/
def processSlide (addPkg : List String) (chartDocs : List (String × List Rel))
    (st : MState) (slidePath newSlidePath : String)
    (slideRels : Option (List Rel)) : LRes :=
  match slideRels with
  | none => ⟨[], st, [], [], [], []⟩
  | some rels =>
    let L := handleRels addPkg chartDocs slidePath st rels
    { L with parts :=
        ("ppt/" ++ dirName newSlidePath ++ "/_rels/" ++ baseName newSlidePath ++ ".rels",
         L.rels) :: L.parts }

/-- One slide processed by the merge loop of
`copy_elements_method.merge_presentations`: the slide's path in the
source, its freshly allocated path in the target, and its relationship
document when one exists. -/
structure SlideJob where
  slidePath : String
  newSlidePath : String
  rels : Option (List Rel)
deriving DecidableEq

/-- The per-slide calls to `process_slide_relationships` made by the merge
loop at `copy_elements_method` line 133, threading `added_media` (and the
uuid stream) across slides. -/
def processSlides (addPkg : List String) (chartDocs : List (String × List Rel)) :
    MState → List SlideJob → LRes
  | st, [] => ⟨[], st, [], [], [], []⟩
  | st, j :: js =>
    let L := processSlide addPkg chartDocs st j.slidePath j.newSlidePath j.rels
    let T := processSlides addPkg chartDocs L.st js
    ⟨[], T.st, L.mcopies ++ T.mcopies, L.ccopies ++ T.ccopies,
     L.parts ++ T.parts, L.rewrites ++ T.rewrites⟩

/-- The source package part paths for the C1 failing input: a slide
referencing a chart, which embeds a workbook that really exists at
`ppt/embeddings/sheet.xlsx`. -/
def c1AddPkg : List String :=
  ["ppt/presentation.xml", "ppt/slides/slide1.xml", "ppt/charts/chart1.xml",
   "ppt/embeddings/sheet.xlsx"]

/-- The source chart's relationship document for the C1 failing input. -/
def c1ChartDocs : List (String × List Rel) :=
  [("ppt/charts/_rels/chart1.xml.rels",
    [⟨"rId1", packageRelType, "../embeddings/sheet.xlsx", none⟩])]

/-- The source slide's relationship document for the C1 failing input. -/
def c1SlideRels : List Rel := [⟨"rId2", chartRelType, "../charts/chart1.xml", none⟩]

/-- The base package part paths for the C1 failing input. -/
def c1BasePaths : List String :=
  ["[Content_Types].xml", "ppt/presentation.xml", "ppt/_rels/presentation.xml.rels",
   "ppt/slides/slide1.xml", "ppt/slides/_rels/slide1.xml.rels"]

/-- The C1 run: process the slide's relationships with uuid draws
`aaaa` (chart) and `bbbb` (workbook). -/
def c1Res : LRes :=
  processSlide c1AddPkg c1ChartDocs ⟨[], ["aaaa", "bbbb"]⟩ "slides/slide1.xml"
    "slides/slide256.xml" (some c1SlideRels)

/-- Every part path present in the output package after the C1 run: the
base's parts, the copied slide, the parts copied by the run, and the
relationship documents it wrote. -/
def c1OutPaths : List String :=
  c1BasePaths ++ ["ppt/slides/slide256.xml"]
    ++ c1Res.ccopies.map Prod.snd
    ++ c1Res.mcopies.map (fun m => m.2.2)
    ++ c1Res.parts.map Prod.fst

/-- C1 (code bug): the source workbook exists at
`ppt/embeddings/sheet.xlsx`, the chart is copied, and the written chart
relationship document points at `../embeddings/Microsoft_Excel_Sheetbbbb.xlsx`
— which resolves, relative to the owning chart part's directory
`ppt/charts`, to a path that is absent from the output package: the merge
completes with a dangling internal relationship, because
`process_chart_relationships` looks the workbook up (and would copy it)
at root-relative paths missing the `ppt/` segment. -/
theorem c1_dangling_workbook_reference :
    "ppt/embeddings/sheet.xlsx" ∈ c1AddPkg
    ∧ c1Res.ccopies = [("ppt/charts/chart1.xml", "ppt/charts/chartaaaa.xml")]
    ∧ (lookupS c1Res.parts "ppt/charts/_rels/chartaaaa.xml.rels").map
        (fun d => d.map Rel.target)
        = some ["../embeddings/Microsoft_Excel_Sheetbbbb.xlsx"]
    ∧ normJoin "ppt/charts" "../embeddings/Microsoft_Excel_Sheetbbbb.xlsx"
        = "ppt/embeddings/Microsoft_Excel_Sheetbbbb.xlsx"
    ∧ "ppt/embeddings/Microsoft_Excel_Sheetbbbb.xlsx" ∉ c1OutPaths := by decide

/-- The source package part paths for the C4 counterexample: two slides
both referencing the same chart part. -/
def c4AddPkg : List String :=
  ["ppt/slides/slide1.xml", "ppt/slides/slide2.xml", "ppt/charts/chart1.xml"]

/-- The two slide jobs of the C4 counterexample, each referencing
`../charts/chart1.xml`. -/
def c4Jobs : List SlideJob :=
  [⟨"slides/slide1.xml", "slides/slide256.xml",
    some [⟨"rId1", chartRelType, "../charts/chart1.xml", none⟩]⟩,
   ⟨"slides/slide2.xml", "slides/slide257.xml",
    some [⟨"rId1", chartRelType, "../charts/chart1.xml", none⟩]⟩]

/-- The C4 counterexample run. -/
def c4Res : LRes := processSlides c4AddPkg [] ⟨[], ["aaaa", "bbbb"]⟩ c4Jobs

/-- C4 (counterexample): a chart referenced by two different merged units
is copied twice — the same source bytes land at two distinct uuid-named
destinations, and the two units' rewritten relationships point at
different paths — refuting "copied at most once ... both units'
relationships point at the same allocated destination path". -/
theorem c4_chart_copied_twice :
    (c4Res.ccopies.filter (fun c => c.1 = "ppt/charts/chart1.xml")).length = 2
    ∧ c4Res.ccopies.map Prod.snd
        = ["ppt/charts/chartaaaa.xml", "ppt/charts/chartbbbb.xml"]
    ∧ (lookupS c4Res.parts "ppt/slides/_rels/slide256.xml.rels").map
        (fun d => d.map Rel.target) = some ["../charts/chartaaaa.xml"]
    ∧ (lookupS c4Res.parts "ppt/slides/_rels/slide257.xml.rels").map
        (fun d => d.map Rel.target) = some ["../charts/chartbbbb.xml"] := by decide

/-- The single slide job of the C9 counterexample. -/
def c9Job : List SlideJob :=
  [⟨"slides/slide1.xml", "slides/slide256.xml",
    some [⟨"rId1", chartRelType, "../charts/chart1.xml", none⟩]⟩]

/-- One run of the C9 merge slice, parameterised by the uuid name the run
draws. -/
def c9Run (u : String) : LRes :=
  processSlides ["ppt/slides/slide1.xml", "ppt/charts/chart1.xml"] [] ⟨[], [u]⟩ c9Job

/-- C9 (counterexample): two runs of the merge on identical source and
target packages that draw different uuid names produce different chart
destination paths, hence different output part-path sets — refuting
run-to-run determinism of the allocated chart paths. -/
theorem c9_output_paths_depend_on_draws :
    (c9Run "aaaa").ccopies.map Prod.snd = ["ppt/charts/chartaaaa.xml"]
    ∧ (c9Run "bbbb").ccopies.map Prod.snd = ["ppt/charts/chartbbbb.xml"]
    ∧ (c9Run "aaaa").ccopies ≠ (c9Run "bbbb").ccopies := by decide

/-- A binding already present in `added_media` survives the handling of
any further relationship: the dict only ever gains entries for paths it
does not yet map. -/
theorem handleRel_added_mono (aP : List String) (cD : List (String × List Rel))
    (sp : String) (st : MState) (r : Rel) (p v : String)
    (h : lookupS st.added p = some v) :
    lookupS (handleRel aP cD sp st r).st.added p = some v := by
  unfold handleRel
  dsimp only
  split
  · split
    · exact h
    · split
      · exact h
      · next hl =>
        dsimp only
        by_cases hp : p = normJoin (dirName sp) r.target
        · rw [hp] at h; rw [h] at hl; cases hl
        · simpa [lookupS, hp] using h
  · split
    · split
      · split
        · exact h
        · exact h
      · exact h
    · exact h

/-- Existing `added_media` bindings survive a whole relationship-document walk. -/
theorem handleRels_added_mono (aP : List String) (cD : List (String × List Rel))
    (sp : String) (rs : List Rel) :
    ∀ (st : MState) (p v : String), lookupS st.added p = some v →
      lookupS (handleRels aP cD sp st rs).st.added p = some v := by
  induction rs with
  | nil => intro st p v h; exact h
  | cons r rs ih =>
    intro st p v h
    exact ih _ p v (handleRel_added_mono aP cD sp st r p v h)

/-- Existing `added_media` bindings survive the processing of one slide. -/
theorem processSlide_added_mono (aP : List String) (cD : List (String × List Rel))
    (st : MState) (sp nsp : String) (o : Option (List Rel)) (p v : String)
    (h : lookupS st.added p = some v) :
    lookupS (processSlide aP cD st sp nsp o).st.added p = some v := by
  cases o with
  | none => exact h
  | some rels => exact handleRels_added_mono aP cD sp rels st p v h

/-- Existing `added_media` bindings survive the processing of any list of
slides. -/
theorem processSlides_added_mono (aP : List String) (cD : List (String × List Rel))
    (js : List SlideJob) :
    ∀ (st : MState) (p v : String), lookupS st.added p = some v →
      lookupS (processSlides aP cD st js).st.added p = some v := by
  induction js with
  | nil => intro st p v h; exact h
  | cons j js ih =>
    intro st p v h
    exact ih _ p v (processSlide_added_mono aP cD st j.slidePath j.newSlidePath j.rels p v h)

/-- Handling one relationship performs at most one media copy. -/
theorem handleRel_mcopies_len (aP : List String) (cD : List (String × List Rel))
    (sp : String) (st : MState) (r : Rel) :
    (handleRel aP cD sp st r).mcopies.length ≤ 1 := by
  unfold handleRel
  dsimp only
  split
  · split
    · exact Nat.zero_le 1
    · split
      · exact Nat.zero_le 1
      · dsimp only
        split
        · exact Nat.le_refl 1
        · exact Nat.zero_le 1
  · split
    · split
      · split
        · exact Nat.zero_le 1
        · exact Nat.zero_le 1
      · exact Nat.zero_le 1
    · exact Nat.zero_le 1

/-- If the canonical media path `p` is already registered in
`added_media`, handling any relationship performs no media copy for
`p`. -/
theorem handleRel_no_copy_of_registered (aP : List String)
    (cD : List (String × List Rel)) (sp : String) (st : MState) (r : Rel)
    (p v : String) (h : lookupS st.added p = some v) :
    (handleRel aP cD sp st r).mcopies.filter (fun m => m.1 = p) = [] := by
  unfold handleRel
  dsimp only
  split
  · split
    · rfl
    · split
      · rfl
      · next hl =>
        dsimp only
        by_cases hp : p = normJoin (dirName sp) r.target
        · rw [hp] at h; rw [h] at hl; cases hl
        · have hd : decide (normJoin (dirName sp) r.target = p) = false :=
            decide_eq_false (fun hq => hp hq.symm)
          split
          · simp [List.filter, hd]
          · rfl
  · split
    · split
      · split
        · rfl
        · rfl
      · rfl
    · rfl

/-- Handling one relationship either performs no media copy for `p`, or
performs at most one and leaves `p` registered in `added_media`. -/
theorem handleRel_filter_spec (aP : List String)
    (cD : List (String × List Rel)) (sp : String) (st : MState) (r : Rel)
    (p : String) :
    ((handleRel aP cD sp st r).mcopies.filter (fun m => m.1 = p) = [])
    ∨ (((handleRel aP cD sp st r).mcopies.filter (fun m => m.1 = p)).length ≤ 1
       ∧ (lookupS (handleRel aP cD sp st r).st.added p).isSome = true) := by
  unfold handleRel
  dsimp only
  split
  · split
    · left; rfl
    · split
      · left; rfl
      · dsimp only
        by_cases hp : p = normJoin (dirName sp) r.target
        · right
          subst hp
          refine ⟨?_, by simp [lookupS]⟩
          split
          · simp [List.filter]
          · simp [List.filter]
        · left
          have hd : decide (normJoin (dirName sp) r.target = p) = false :=
            decide_eq_false (fun hq => hp hq.symm)
          split
          · simp [List.filter, hd]
          · rfl
  · split
    · split
      · split
        · left; rfl
        · left; rfl
      · left; rfl
    · left; rfl

/-- Once registered, a media path is never copied again during the rest
of a document walk. -/
theorem handleRels_no_copy_of_registered (aP : List String)
    (cD : List (String × List Rel)) (sp : String) (rs : List Rel) :
    ∀ (st : MState) (p v : String), lookupS st.added p = some v →
      (handleRels aP cD sp st rs).mcopies.filter (fun m => m.1 = p) = [] := by
  induction rs with
  | nil => intro st p v h; rfl
  | cons r rs ih =>
    intro st p v h
    show ((handleRel aP cD sp st r).mcopies
        ++ (handleRels aP cD sp (handleRel aP cD sp st r).st rs).mcopies).filter
          (fun m => m.1 = p) = []
    rw [List.filter_append,
        handleRel_no_copy_of_registered aP cD sp st r p v h,
        ih _ p v (handleRel_added_mono aP cD sp st r p v h)]
    rfl

/-- A document walk either performs no media copy for `p`, or performs at
most one and leaves `p` registered in `added_media`. -/
theorem handleRels_filter_spec (aP : List String)
    (cD : List (String × List Rel)) (sp : String) (rs : List Rel) :
    ∀ (st : MState) (p : String),
      ((handleRels aP cD sp st rs).mcopies.filter (fun m => m.1 = p) = [])
      ∨ (((handleRels aP cD sp st rs).mcopies.filter (fun m => m.1 = p)).length ≤ 1
         ∧ (lookupS (handleRels aP cD sp st rs).st.added p).isSome = true) := by
  induction rs with
  | nil => intro st p; left; rfl
  | cons r rs ih =>
    intro st p
    have hshape :
        (handleRels aP cD sp st (r :: rs)).mcopies
          = (handleRel aP cD sp st r).mcopies
            ++ (handleRels aP cD sp (handleRel aP cD sp st r).st rs).mcopies := rfl
    have hst :
        (handleRels aP cD sp st (r :: rs)).st
          = (handleRels aP cD sp (handleRel aP cD sp st r).st rs).st := rfl
    rw [hshape, hst, List.filter_append]
    rcases handleRel_filter_spec aP cD sp st r p with hnil | ⟨hlen, hsome⟩
    · rw [hnil]
      rcases ih (handleRel aP cD sp st r).st p with tnil | ⟨tlen, tsome⟩
      · left; rw [tnil]; rfl
      · right
        refine ⟨?_, tsome⟩
        simpa using tlen
    · right
      obtain ⟨v, hv⟩ := Option.isSome_iff_exists.mp hsome
      rw [handleRels_no_copy_of_registered aP cD sp rs _ p v hv]
      refine ⟨?_, ?_⟩
      · simpa using hlen
      · exact Option.isSome_iff_exists.mpr
          ⟨v, handleRels_added_mono aP cD sp rs _ p v hv⟩

/-- Once registered, a media path is never copied again while processing
further slides. -/
theorem processSlides_no_copy_of_registered (aP : List String)
    (cD : List (String × List Rel)) (js : List SlideJob) :
    ∀ (st : MState) (p v : String), lookupS st.added p = some v →
      (processSlides aP cD st js).mcopies.filter (fun m => m.1 = p) = [] := by
  induction js with
  | nil => intro st p v h; rfl
  | cons j js ih =>
    intro st p v h
    have hshape :
        (processSlides aP cD st (j :: js)).mcopies
          = (processSlide aP cD st j.slidePath j.newSlidePath j.rels).mcopies
            ++ (processSlides aP cD
                (processSlide aP cD st j.slidePath j.newSlidePath j.rels).st js).mcopies := rfl
    rw [hshape, List.filter_append]
    have hhead :
        (processSlide aP cD st j.slidePath j.newSlidePath j.rels).mcopies.filter
          (fun m => m.1 = p) = [] := by
      cases ho : j.rels with
      | none => simp [processSlide, ho]
      | some rels =>
        show (processSlide aP cD st j.slidePath j.newSlidePath (some rels)).mcopies.filter
          (fun m => m.1 = p) = []
        exact handleRels_no_copy_of_registered aP cD j.slidePath rels st p v h
    rw [hhead, ih _ p v (processSlide_added_mono aP cD st j.slidePath j.newSlidePath j.rels p v h)]
    rfl

/-- Processing one slide either performs no media copy for `p`, or at
most one while leaving `p` registered. -/
theorem processSlide_filter_spec (aP : List String)
    (cD : List (String × List Rel)) (st : MState) (j : SlideJob) (p : String) :
    ((processSlide aP cD st j.slidePath j.newSlidePath j.rels).mcopies.filter
        (fun m => m.1 = p) = [])
    ∨ (((processSlide aP cD st j.slidePath j.newSlidePath j.rels).mcopies.filter
          (fun m => m.1 = p)).length ≤ 1
       ∧ (lookupS (processSlide aP cD st j.slidePath j.newSlidePath j.rels).st.added
            p).isSome = true) := by
  cases ho : j.rels with
  | none => left; simp [processSlide, ho]
  | some rels =>
    have h1 :
        (processSlide aP cD st j.slidePath j.newSlidePath (some rels)).mcopies
          = (handleRels aP cD j.slidePath st rels).mcopies := rfl
    have h2 :
        (processSlide aP cD st j.slidePath j.newSlidePath (some rels)).st
          = (handleRels aP cD j.slidePath st rels).st := rfl
    rw [h1, h2]
    exact handleRels_filter_spec aP cD j.slidePath rels st p

/-- Across any list of slides, at most one media copy is performed for
any given canonical media path. -/
theorem processSlides_filter_len (aP : List String)
    (cD : List (String × List Rel)) (js : List SlideJob) :
    ∀ (st : MState) (p : String),
      ((processSlides aP cD st js).mcopies.filter (fun m => m.1 = p)).length ≤ 1 := by
  induction js with
  | nil => intro st p; exact Nat.zero_le 1
  | cons j js ih =>
    intro st p
    have hshape :
        (processSlides aP cD st (j :: js)).mcopies
          = (processSlide aP cD st j.slidePath j.newSlidePath j.rels).mcopies
            ++ (processSlides aP cD
                (processSlide aP cD st j.slidePath j.newSlidePath j.rels).st js).mcopies := rfl
    rw [hshape, List.filter_append]
    rcases processSlide_filter_spec aP cD st j p with hnil | ⟨hlen, hsome⟩
    · rw [hnil]
      simpa using ih _ p
    · obtain ⟨v, hv⟩ := Option.isSome_iff_exists.mp hsome
      rw [processSlides_no_copy_of_registered aP cD js _ p v hv]
      simpa using hlen

/-- Every media target rewrite recorded by handling one relationship
points at the name `added_media` maps the canonical path to afterwards. -/
theorem handleRel_rewrites_spec (aP : List String)
    (cD : List (String × List Rel)) (sp : String) (st : MState) (r : Rel) :
    ∀ q t, (q, t) ∈ (handleRel aP cD sp st r).rewrites →
      ∃ n, lookupS (handleRel aP cD sp st r).st.added q = some n
        ∧ t = "../" ++ n := by
  unfold handleRel
  dsimp only
  split
  · split
    · intro q t ht; cases ht
    · split
      · next name hl =>
        intro q t ht
        have hqt := List.mem_singleton.mp ht
        rw [Prod.ext_iff] at hqt
        obtain ⟨hq, hts⟩ := hqt
        dsimp only at hq hts
        subst hq; subst hts
        exact ⟨name, hl, rfl⟩
      · intro q t ht
        dsimp only at ht
        have hqt := List.mem_singleton.mp ht
        rw [Prod.ext_iff] at hqt
        obtain ⟨hq, hts⟩ := hqt
        dsimp only at hq hts
        subst hq; subst hts
        refine ⟨_, ?_, rfl⟩
        simp [lookupS]
  · split
    · split
      · split
        · intro q t ht; cases ht
        · intro q t ht; cases ht
      · intro q t ht; cases ht
    · intro q t ht; cases ht

/-- Every media target rewrite recorded during a document walk points at
the name the final `added_media` maps the canonical path to. -/
theorem handleRels_rewrites_spec (aP : List String)
    (cD : List (String × List Rel)) (sp : String) (rs : List Rel) :
    ∀ (st : MState) q t, (q, t) ∈ (handleRels aP cD sp st rs).rewrites →
      ∃ n, lookupS (handleRels aP cD sp st rs).st.added q = some n
        ∧ t = "../" ++ n := by
  induction rs with
  | nil => intro st q t ht; cases ht
  | cons r rs ih =>
    intro st q t ht
    have hshape :
        (handleRels aP cD sp st (r :: rs)).rewrites
          = (handleRel aP cD sp st r).rewrites
            ++ (handleRels aP cD sp (handleRel aP cD sp st r).st rs).rewrites := rfl
    have hst :
        (handleRels aP cD sp st (r :: rs)).st
          = (handleRels aP cD sp (handleRel aP cD sp st r).st rs).st := rfl
    rw [hshape] at ht
    rw [hst]
    rcases List.mem_append.mp ht with hh | hh
    · obtain ⟨n, hn, htn⟩ := handleRel_rewrites_spec aP cD sp st r q t hh
      exact ⟨n, handleRels_added_mono aP cD sp rs _ q n hn, htn⟩
    · exact ih _ q t hh

/-- Every media target rewrite recorded across a list of slides points at
the name the final `added_media` maps the canonical path to. -/
theorem processSlides_rewrites_spec (aP : List String)
    (cD : List (String × List Rel)) (js : List SlideJob) :
    ∀ (st : MState) q t, (q, t) ∈ (processSlides aP cD st js).rewrites →
      ∃ n, lookupS (processSlides aP cD st js).st.added q = some n
        ∧ t = "../" ++ n := by
  induction js with
  | nil => intro st q t ht; cases ht
  | cons j js ih =>
    intro st q t ht
    have hshape :
        (processSlides aP cD st (j :: js)).rewrites
          = (processSlide aP cD st j.slidePath j.newSlidePath j.rels).rewrites
            ++ (processSlides aP cD
                (processSlide aP cD st j.slidePath j.newSlidePath j.rels).st js).rewrites := rfl
    have hst :
        (processSlides aP cD st (j :: js)).st
          = (processSlides aP cD
              (processSlide aP cD st j.slidePath j.newSlidePath j.rels).st js).st := rfl
    rw [hshape] at ht
    rw [hst]
    rcases List.mem_append.mp ht with hh | hh
    · have hslide : ∃ n,
          lookupS (processSlide aP cD st j.slidePath j.newSlidePath j.rels).st.added q
            = some n ∧ t = "../" ++ n := by
        cases ho : j.rels with
        | none => rw [ho] at hh; cases hh
        | some rels =>
          rw [ho] at hh
          exact handleRels_rewrites_spec aP cD j.slidePath rels st q t hh
      obtain ⟨n, hn, htn⟩ := hslide
      exact ⟨n, processSlides_added_mono aP cD js _ q n hn, htn⟩
    · exact ih _ q t hh

/-- C4 (amended): within one merge, a media file is copied into the
target at most once — for any canonical source media path at most one
media copy is performed across all processed slides — and all rewritten
media relationships for that path point at the same allocated destination;
chart parts, by contrast, are copied once per referencing relationship
under fresh uuid-derived names (see the counterexample). -/
theorem media_dedup_and_consistent_targets (aP : List String)
    (cD : List (String × List Rel)) (st : MState) (js : List SlideJob)
    (p : String) :
    ((processSlides aP cD st js).mcopies.filter (fun m => m.1 = p)).length ≤ 1
    ∧ ∀ t₁ t₂, (p, t₁) ∈ (processSlides aP cD st js).rewrites →
        (p, t₂) ∈ (processSlides aP cD st js).rewrites → t₁ = t₂ := by
  constructor
  · exact processSlides_filter_len aP cD js st p
  · intro t₁ t₂ h₁ h₂
    obtain ⟨n₁, hn₁, ht₁⟩ := processSlides_rewrites_spec aP cD js st p t₁ h₁
    obtain ⟨n₂, hn₂, ht₂⟩ := processSlides_rewrites_spec aP cD js st p t₂ h₂
    rw [hn₁] at hn₂
    injection hn₂ with hn
    rw [ht₁, ht₂, hn]

/-- The source package for the C4 witness: one media part referenced by
two slides. -/
def c4MediaAddPkg : List String :=
  ["ppt/slides/slide1.xml", "ppt/slides/slide2.xml", "ppt/media/pic.png"]

/-- Two slides both referencing `../media/pic.png`. -/
def c4MediaJobs : List SlideJob :=
  [⟨"slides/slide1.xml", "slides/slide256.xml",
    some [⟨"rId1", imageRelType, "../media/pic.png", none⟩]⟩,
   ⟨"slides/slide2.xml", "slides/slide257.xml",
    some [⟨"rId1", imageRelType, "../media/pic.png", none⟩]⟩]

/-- Witness for the amended C4 theorem: on two slides referencing the same
media part the copy count for that part is at most one and the two
recorded rewrites agree. -/
theorem media_dedup_and_consistent_targets_witness :
    ((processSlides c4MediaAddPkg [] ⟨[], []⟩ c4MediaJobs).mcopies.filter
        (fun m => m.1 = "media/pic.png")).length ≤ 1
    ∧ ("../media/image1.png" : String) = "../media/image1.png" :=
  ⟨(media_dedup_and_consistent_targets c4MediaAddPkg [] ⟨[], []⟩ c4MediaJobs
      "media/pic.png").1,
   (media_dedup_and_consistent_targets c4MediaAddPkg [] ⟨[], []⟩ c4MediaJobs
      "media/pic.png").2 "../media/image1.png" "../media/image1.png"
      (by decide) (by decide)⟩

/-- Handling one relationship from two states with the same `added_media`
produces the same `added_media`, the same media copies, and the same media
rewrites, regardless of the uuid streams. -/
theorem handleRel_media_indep (aP : List String)
    (cD : List (String × List Rel)) (sp : String) (st₁ st₂ : MState) (r : Rel)
    (h : st₁.added = st₂.added) :
    (handleRel aP cD sp st₁ r).st.added = (handleRel aP cD sp st₂ r).st.added
    ∧ (handleRel aP cD sp st₁ r).mcopies = (handleRel aP cD sp st₂ r).mcopies
    ∧ (handleRel aP cD sp st₁ r).rewrites = (handleRel aP cD sp st₂ r).rewrites := by
  unfold handleRel
  dsimp only
  rw [h]
  split
  · split
    · exact ⟨h, rfl, rfl⟩
    · split
      · exact ⟨h, rfl, rfl⟩
      · exact ⟨rfl, rfl, rfl⟩
  · split
    · split
      · split
        · exact ⟨rfl, rfl, rfl⟩
        · exact ⟨rfl, rfl, rfl⟩
      · exact ⟨rfl, rfl, rfl⟩
    · exact ⟨h, rfl, rfl⟩

/-- A document walk from two states with the same `added_media` produces
the same `added_media`, media copies, and media rewrites. -/
theorem handleRels_media_indep (aP : List String)
    (cD : List (String × List Rel)) (sp : String) (rs : List Rel) :
    ∀ (st₁ st₂ : MState), st₁.added = st₂.added →
      (handleRels aP cD sp st₁ rs).st.added = (handleRels aP cD sp st₂ rs).st.added
      ∧ (handleRels aP cD sp st₁ rs).mcopies = (handleRels aP cD sp st₂ rs).mcopies
      ∧ (handleRels aP cD sp st₁ rs).rewrites = (handleRels aP cD sp st₂ rs).rewrites := by
  induction rs with
  | nil => intro st₁ st₂ h; exact ⟨h, rfl, rfl⟩
  | cons r rs ih =>
    intro st₁ st₂ h
    obtain ⟨ha, hm, hw⟩ := handleRel_media_indep aP cD sp st₁ st₂ r h
    obtain ⟨ta, tm, tw⟩ := ih (handleRel aP cD sp st₁ r).st (handleRel aP cD sp st₂ r).st ha
    refine ⟨ta, ?_, ?_⟩
    · show (handleRel aP cD sp st₁ r).mcopies ++ _ = (handleRel aP cD sp st₂ r).mcopies ++ _
      rw [hm, tm]
    · show (handleRel aP cD sp st₁ r).rewrites ++ _ = (handleRel aP cD sp st₂ r).rewrites ++ _
      rw [hw, tw]

/-- Processing one slide from two states with the same `added_media`
produces the same `added_media`, media copies, and media rewrites. -/
theorem processSlide_media_indep (aP : List String)
    (cD : List (String × List Rel)) (st₁ st₂ : MState) (sp nsp : String)
    (o : Option (List Rel)) (h : st₁.added = st₂.added) :
    (processSlide aP cD st₁ sp nsp o).st.added
        = (processSlide aP cD st₂ sp nsp o).st.added
    ∧ (processSlide aP cD st₁ sp nsp o).mcopies
        = (processSlide aP cD st₂ sp nsp o).mcopies
    ∧ (processSlide aP cD st₁ sp nsp o).rewrites
        = (processSlide aP cD st₂ sp nsp o).rewrites := by
  cases o with
  | none => exact ⟨h, rfl, rfl⟩
  | some rels => exact handleRels_media_indep aP cD sp rels st₁ st₂ h

/-- Processing a list of slides from two states with the same
`added_media` produces the same `added_media`, media copies, and media
rewrites. -/
theorem processSlides_media_indep (aP : List String)
    (cD : List (String × List Rel)) (js : List SlideJob) :
    ∀ (st₁ st₂ : MState), st₁.added = st₂.added →
      (processSlides aP cD st₁ js).st.added = (processSlides aP cD st₂ js).st.added
      ∧ (processSlides aP cD st₁ js).mcopies = (processSlides aP cD st₂ js).mcopies
      ∧ (processSlides aP cD st₁ js).rewrites = (processSlides aP cD st₂ js).rewrites := by
  induction js with
  | nil => intro st₁ st₂ h; exact ⟨h, rfl, rfl⟩
  | cons j js ih =>
    intro st₁ st₂ h
    obtain ⟨ha, hm, hw⟩ :=
      processSlide_media_indep aP cD st₁ st₂ j.slidePath j.newSlidePath j.rels h
    obtain ⟨ta, tm, tw⟩ :=
      ih (processSlide aP cD st₁ j.slidePath j.newSlidePath j.rels).st
         (processSlide aP cD st₂ j.slidePath j.newSlidePath j.rels).st ha
    refine ⟨ta, ?_, ?_⟩
    · show (processSlide aP cD st₁ j.slidePath j.newSlidePath j.rels).mcopies ++ _
        = (processSlide aP cD st₂ j.slidePath j.newSlidePath j.rels).mcopies ++ _
      rw [hm, tm]
    · show (processSlide aP cD st₁ j.slidePath j.newSlidePath j.rels).rewrites ++ _
        = (processSlide aP cD st₂ j.slidePath j.newSlidePath j.rels).rewrites ++ _
      rw [hw, tw]

/-- C9 (amended): for a fixed sequence of drawn uuid names the merge is a
deterministic function of its inputs, and the media effects do not depend
on the draws at all — two runs over the same packages with different uuid
streams perform the same media copies, end with the same `added_media`
table, and rewrite media relationships identically; only the chart and
embedded-workbook destinations embed the drawn names (see the
counterexample). -/
theorem media_effects_uuid_independent (aP : List String)
    (cD : List (String × List Rel)) (js : List SlideJob)
    (added : List (String × String)) (us₁ us₂ : List String) :
    (processSlides aP cD ⟨added, us₁⟩ js).mcopies
        = (processSlides aP cD ⟨added, us₂⟩ js).mcopies
    ∧ (processSlides aP cD ⟨added, us₁⟩ js).st.added
        = (processSlides aP cD ⟨added, us₂⟩ js).st.added
    ∧ (processSlides aP cD ⟨added, us₁⟩ js).rewrites
        = (processSlides aP cD ⟨added, us₂⟩ js).rewrites := by
  obtain ⟨ha, hm, hw⟩ := processSlides_media_indep aP cD js ⟨added, us₁⟩ ⟨added, us₂⟩ rfl
  exact ⟨hm, ha, hw⟩

end PptxMerge
